import Mathlib

/-!
Verification of the cps-estimation pipeline of cpsmine.py.

The script reads a csv log of connection events, filters rows by
interface or zone and protocol (skip_row), builds a per-second count
table keyed by compressed timestamp strings (process_csvfile), merges
chronologically adjacent seconds into sampling buckets and derives a
list of cps samples (evaluate_cpsdict together with evaluate_row), and
finally prints max, mean, sample standard deviation and three suggested
thresholds (print_results, print_stats, print_thresholds).

Modelling conventions used throughout this file:
- strings are modelled as lists of character codes (List Nat): digits
  are the codes 48..57, the separators of the input timestamp format
  "%Y/%m/%d %H:%M:%S" are 47 (slash), 32 (space), 58 (colon); the
  auxiliary fields compared only for equality (interface, zone,
  protocol) keep the Lean String type;
- machine integers are Nat or Int; the true division count/interval and
  the cps bounds comparisons are modelled exactly over the rationals;
- datetime values at whole-second resolution are a six-field structure;
  subtraction of datetimes is the difference of their total-second
  values; the comparison (ts - previous_ts) <= interval/2 between exact
  timedeltas (microsecond resolution, so interval/2 is exact even for
  odd intervals) is equivalent to 2 * delta <= interval over Int, which
  is how it is written here;
- fallible code returns Option, and code that can raise an uncaught
  exception returns a dedicated sum type.
-/

/-- Width w zero-padded decimal rendering of a natural number as the list
of character codes of its digits, most significant first (models the
fixed-width numeric fields written by strftime). -/
def renderFixed : Nat → Nat → List Nat
  | 0, _ => []
  | w + 1, n => renderFixed w (n / 10) ++ [48 + n % 10]

/-- Consume exactly the given number of decimal-digit character codes,
accumulating their value left to right (models the fixed-width numeric
fields read by strptime); none models a match failure. -/
def readFixedAux : Nat → List Nat → Nat → Option (Nat × List Nat)
  | 0, s, acc => some (acc, s)
  | _ + 1, [], _ => none
  | w + 1, c :: cs, acc =>
    if 48 ≤ c ∧ c ≤ 57 then readFixedAux w cs (acc * 10 + (c - 48)) else none

/-- Read a fixed-width decimal field. -/
def readFixed (w : Nat) (s : List Nat) : Option (Nat × List Nat) :=
  readFixedAux w s 0

/-- Consume one expected literal character code (the separators of the
input timestamp format FMT). -/
def readLit (c : Nat) : List Nat → Option (List Nat)
  | [] => none
  | c2 :: cs => if c2 = c then some cs else none

/-- Calendar timestamp at whole-second resolution. strptime with either
format of the script always yields microsecond 0, so sub-second fields
are omitted. -/
structure DateTime where
  year : Nat
  month : Nat
  day : Nat
  hour : Nat
  minute : Nat
  second : Nat
deriving DecidableEq, Repr

/-- Gregorian leap-year test (as used by the datetime module). -/
def isLeap (y : Nat) : Bool :=
  (y % 4 == 0 && y % 100 != 0) || y % 400 == 0

/-- Length of a month in the given year. -/
def daysInMonth (y m : Nat) : Nat :=
  if m = 2 then (if isLeap y then 29 else 28)
  else if m = 4 ∨ m = 6 ∨ m = 9 ∨ m = 11 then 30
  else 31

/-- Days in the months of year y strictly before month m. -/
def daysBeforeMonth (y : Nat) : Nat → Nat
  | 0 => 0
  | m + 1 => daysBeforeMonth y m + (if 1 ≤ m then daysInMonth y m else 0)

/-- Proleptic Gregorian ordinal of the date, with 0001-01-01 as day 1
(the value datetime.toordinal returns). -/
def toOrdinal (dt : DateTime) : Nat :=
  365 * (dt.year - 1) + (dt.year - 1) / 4 - (dt.year - 1) / 100 + (dt.year - 1) / 400
    + daysBeforeMonth dt.year dt.month + dt.day

/-- Timestamp as a total count of seconds. The timedelta between two
datetimes is the difference of their toSecs values. -/
def DateTime.toSecs (dt : DateTime) : Nat :=
  86400 * toOrdinal dt + 3600 * dt.hour + 60 * dt.minute + dt.second

/-- Field ranges accepted by strptime plus the datetime constructor:
year 1..9999, month 1..12, day 1..daysInMonth, hour 0..23, minute and
second 0..59. -/
def validDT (y mo d h mi s : Nat) : Bool :=
  1 ≤ y && y ≤ 9999 && 1 ≤ mo && mo ≤ 12 && 1 ≤ d && d ≤ daysInMonth y mo
    && h ≤ 23 && mi ≤ 59 && s ≤ 59

/-- Validity of a datetime value (the constraints under which the
datetime constructor accepts the six fields). -/
def DateTime.Valid (dt : DateTime) : Prop :=
  validDT dt.year dt.month dt.day dt.hour dt.minute dt.second = true

/-- strftime(COMPRESS_FMT): render the timestamp in the canonical
compressed form YYYYMMDDHHMMSS used as count-table key. -/
def strftimeCompress (dt : DateTime) : List Nat :=
  renderFixed 4 dt.year ++ renderFixed 2 dt.month ++ renderFixed 2 dt.day
    ++ renderFixed 2 dt.hour ++ renderFixed 2 dt.minute ++ renderFixed 2 dt.second

/-- strptime(key, COMPRESS_FMT): parse a YYYYMMDDHHMMSS string; none
models the ValueError raised on malformed input. -/
def strptimeCompress (s : List Nat) : Option DateTime :=
  (readFixed 4 s).bind (fun p1 =>
  (readFixed 2 p1.2).bind (fun p2 =>
  (readFixed 2 p2.2).bind (fun p3 =>
  (readFixed 2 p3.2).bind (fun p4 =>
  (readFixed 2 p4.2).bind (fun p5 =>
  (readFixed 2 p5.2).bind (fun p6 =>
    if p6.2 = [] ∧ validDT p1.1 p2.1 p3.1 p4.1 p5.1 p6.1 = true then
      some ⟨p1.1, p2.1, p3.1, p4.1, p5.1, p6.1⟩
    else none))))))

/-- strptime(value, FMT) with FMT = "%Y/%m/%d %H:%M:%S", applied to the
Start Time field of a row; none models the ValueError raised on
malformed input. (strptime additionally tolerates unpadded one-digit
fields; the canonical zero-padded log format modelled here is what the
claims exercise.) -/
def strptimeFmt (s : List Nat) : Option DateTime :=
  (readFixed 4 s).bind (fun p1 =>
  (readLit 47 p1.2).bind (fun r1 =>
  (readFixed 2 r1).bind (fun p2 =>
  (readLit 47 p2.2).bind (fun r2 =>
  (readFixed 2 r2).bind (fun p3 =>
  (readLit 32 p3.2).bind (fun r3 =>
  (readFixed 2 r3).bind (fun p4 =>
  (readLit 58 p4.2).bind (fun r4 =>
  (readFixed 2 r4).bind (fun p5 =>
  (readLit 58 p5.2).bind (fun r5 =>
  (readFixed 2 r5).bind (fun p6 =>
    if p6.2 = [] ∧ validDT p1.1 p2.1 p3.1 p4.1 p5.1 p6.1 = true then
      some ⟨p1.1, p2.1, p3.1, p4.1, p5.1, p6.1⟩
    else none)))))))))))

/-- Lexicographic comparison of two code strings (Python string <=). -/
def keyLe : List Nat → List Nat → Bool
  | [], _ => true
  | _ :: _, [] => false
  | a :: as, b :: bs => if a < b then true else if a = b then keyLe as bs else false

/-- Insert a key into an ascending list of keys. -/
def insertKey (k : List Nat) : List (List Nat) → List (List Nat)
  | [] => [k]
  | x :: xs => if keyLe k x then k :: x :: xs else x :: insertKey k xs

/-- sorted(cpsdict): the table keys in ascending string order. -/
def sortKeys (ks : List (List Nat)) : List (List Nat) :=
  ks.foldr insertKey []

/-- Configuration subset consumed by the aggregation core (from
cli_vars): sampling interval in seconds and the two cps bounds. The
suppress flag only controls the per-bucket progress printing and has no
effect on the returned samples, and the filter criteria are passed to
the relevant functions separately, exactly as the script passes them. -/
structure Config where
  interval : Nat
  lowcps : Int
  highcps : Int
deriving DecidableEq, Repr

/-- PROTO_LIST, the fixed set of known protocols. -/
def PROTO_LIST : List String := ["icmp", "tcp", "udp"]

/-- Log record fields consumed by the script. startTime is the raw
Start Time string (as character codes); the remaining fields are only
compared for equality and keep the String type. -/
structure Row where
  startTime : List Nat
  inboundInterface : String
  sourceZone : String
  ipProtocol : String
deriving DecidableEq, Repr

/-- Python truthiness of an optional string (None and the empty string
are falsy). -/
def truthyS : Option String → Bool
  | none => false
  | some s => !(s == "")

/-- Python != between a string field and an optional target value (a
missing target compares unequal to every string). -/
def strNeOpt (v : String) : Option String → Bool
  | none => true
  | some t => v != t

/-- Value of the row field examined by skip_row: Inbound Interface when
the interface criterion is truthy, Source Zone otherwise. -/
def targetFieldOf (row : Row) (interface : Option String) : String :=
  if truthyS interface then row.inboundInterface else row.sourceZone

/-- Target value skip_row compares against: the interface criterion when
truthy, the zone criterion otherwise. -/
def targetValueOf (interface zone : Option String) : Option String :=
  if truthyS interface then interface else zone

/-- skip_row: true when the row must be skipped. The target field is
checked first; the protocol is only examined when the target matches. -/
def skip_row (row : Row) (interface : Option String) (proto : String)
    (zone : Option String) : Bool :=
  if strNeOpt (targetFieldOf row interface) (targetValueOf interface zone) then true
  else if proto = "all" then false
  else if proto = "other" ∧ row.ipProtocol ∉ PROTO_LIST then false
  else if proto = row.ipProtocol then false
  else true

/-- Python dict modelled as an insertion-ordered association list with
unique keys: dict.get. -/
def dictGet : List (List Nat × Nat) → List Nat → Option Nat
  | [], _ => none
  | (k2, v) :: d, k => if k = k2 then some v else dictGet d k

/-- Assignment dict[k] = v: replace in place when present, append
otherwise. -/
def dictSet : List (List Nat × Nat) → List Nat → Nat → List (List Nat × Nat)
  | [], k, v => [(k, v)]
  | (k2, v2) :: d, k, v =>
    if k = k2 then (k2, v) :: d else (k2, v2) :: dictSet d k v

/-- Python truthiness of dict.get(k): None and 0 are falsy. -/
def truthyNat : Option Nat → Bool
  | none => false
  | some n => !(n == 0)

/-- cpsdict[k] for a key known to be present (the default 0 is never hit
on the tables the program builds, whose values are at least 1). -/
def lookupCount (d : List (List Nat × Nat)) (k : List Nat) : Nat :=
  (dictGet d k).getD 0

/-- count/interval with Python true division, modelled exactly. -/
def cpsOf (count : Nat) (cfg : Config) : ℚ :=
  (count : ℚ) / (cfg.interval : ℚ)

/-- evaluate_row: append cps = count/interval to cpslist when count > 1
and lowcps < cps < highcps. The ts argument is only tested against None
and echoed in the optional progress line, which is not part of the data
contract. -/
def evaluate_row (cpslist : List ℚ) (count : Nat) (ts : Option DateTime)
    (cfg : Config) : List ℚ :=
  match ts with
  | none => cpslist
  | some _ =>
    if 1 < count then
      if (cfg.lowcps : ℚ) < cpsOf count cfg ∧ cpsOf count cfg < (cfg.highcps : ℚ) then
        cpslist ++ [cpsOf count cfg]
      else cpslist
    else cpslist

/-- Result of code that may let an uncaught ValueError (from strptime)
escape. -/
inductive VRes (α : Type) where
  | ok : α → VRes α
  | valueError : VRes α
deriving DecidableEq, Repr

/-- Loop of evaluate_cpsdict over the remaining sorted keys, carrying
the current bucket (anchor previous_ts and running count) and the
accumulated cpslist. A key within half an interval of the anchor joins
the bucket: the running count is incremented by exactly 1 and the anchor
is kept; otherwise the bucket is flushed through evaluate_row and a new
bucket starts at this key with its stored count. The final pending
bucket is flushed after the loop. -/
def cpsLoop (cfg : Config) (cpsdict : List (List Nat × Nat)) :
    List (List Nat) → Nat → DateTime → List ℚ → VRes (List ℚ)
  | [], count, prev, cpslist => .ok (evaluate_row cpslist count (some prev) cfg)
  | k :: ks, count, prev, cpslist =>
    match strptimeCompress k with
    | none => .valueError
    | some ts =>
      if 2 * ((ts.toSecs : Int) - (prev.toSecs : Int)) ≤ (cfg.interval : Int) then
        cpsLoop cfg cpsdict ks (count + 1) prev cpslist
      else
        cpsLoop cfg cpsdict ks (lookupCount cpsdict k) ts
          (evaluate_row cpslist count (some prev) cfg)

/-- evaluate_cpsdict: derive the cps sample list from the count table.
An empty table returns Python None (modelled as ok none); otherwise the
keys are sorted, the first key seeds the initial bucket and the loop
processes the rest. -/
def evaluate_cpsdict (cpsdict : List (List Nat × Nat)) (cfg : Config) :
    VRes (Option (List ℚ)) :=
  if cpsdict.isEmpty then .ok none
  else
    match sortKeys (cpsdict.map Prod.fst) with
    | [] => .ok none
    | k0 :: rest =>
      match strptimeCompress k0 with
      | none => .valueError
      | some ts0 =>
        match cpsLoop cfg cpsdict rest (lookupCount cpsdict k0) ts0 [] with
        | .ok l => .ok (some l)
        | .valueError => .valueError

/-- Sample sequence the caller observes: print_results treats the None
returned for an empty table exactly like an empty list. -/
def samplesOf : VRes (Option (List ℚ)) → List ℚ
  | .ok (some l) => l
  | _ => []

/-- Outcome of process_csvfile: a finished count table, a sys.exit with
a diagnostic naming the file and the offending line (the csv.Error
handler), or an uncaught ValueError escaping from strptime with no such
diagnostic (ValueError is not a csv.Error, and main catches only
UnicodeDecodeError, FileNotFoundError and PermissionError). -/
inductive ProcResult where
  | ok : List (List Nat × Nat) → ProcResult
  | fatalLocated : Nat → ProcResult
  | uncaughtValueError : ProcResult
deriving DecidableEq, Repr

/-- One record produced by iterating the csv reader: a row, or the point
where iteration raises csv.Error (malformed record structure). -/
inductive RawRecord where
  | ok : Row → RawRecord
  | csvError : RawRecord
deriving DecidableEq, Repr

/-- Loop of process_csvfile over the reader records. The line counter
abstracts reader.line_num. A surviving row has its Start Time parsed
with FMT, re-rendered in compressed form, and the count under that key
is incremented (created at 1 when the truthiness test on dict.get
fails). -/
def procLoop (interface : Option String) (proto : String) (zone : Option String) :
    List RawRecord → Nat → List (List Nat × Nat) → ProcResult
  | [], _, d => .ok d
  | .csvError :: _, line, _ => .fatalLocated line
  | (.ok row) :: rest, line, d =>
    if skip_row row interface proto zone then
      procLoop interface proto zone rest (line + 1) d
    else
      match strptimeFmt row.startTime with
      | none => .uncaughtValueError
      | some t1 =>
        procLoop interface proto zone rest (line + 1)
          (if truthyNat (dictGet d (strftimeCompress t1)) then
            dictSet d (strftimeCompress t1) (lookupCount d (strftimeCompress t1) + 1)
          else
            dictSet d (strftimeCompress t1) 1)

/-- process_csvfile: build the per-second count table from the reader. -/
def process_csvfile (records : List RawRecord) (interface : Option String)
    (proto : String) (zone : Option String) : ProcResult :=
  procLoop interface proto zone records 1 []

/-- statistics.mean: exact arithmetic mean. -/
def statsMean (l : List ℚ) : ℚ :=
  l.sum / (l.length : ℚ)

/-- Square of statistics.stdev: the sample variance with N-1 in the
denominator; the printed standard deviation is its square root. -/
def sampleVar (l : List ℚ) : ℚ :=
  ((l.map (fun x => (x - statsMean l) ^ 2)).sum) / ((l.length : ℚ) - 1)

/-- max(cpslist) for the nonempty lists the callers guard for. -/
def listMax : List ℚ → ℚ
  | [] => 0
  | x :: xs => xs.foldl max x

/-- Alert Threshold printed by print_thresholds: mean + stdev. -/
def alertThreshold (mean stdev : ℝ) : ℝ :=
  mean + stdev

/-- Activate Threshold printed by print_thresholds: 1.1 * peak. -/
def activateThreshold (peak : ℚ) : ℚ :=
  1.1 * peak

/-- Max Threshold printed by print_thresholds: 1.1 * 1.1 * peak. -/
def maxThreshold (peak : ℚ) : ℚ :=
  1.1 * 1.1 * peak

/-- One line of summary output. Numeric payloads are carried exactly:
stdevLine carries the variance whose square root is printed, and
alertLine carries the mean and the variance (the printed value is
mean + sqrt variance). Fixed-decimal formatting is display only. -/
inductive OutLine where
  | header : String → String → OutLine
  | maxLine : ℚ → OutLine
  | avgLine : ℚ → OutLine
  | stdevLine : ℚ → OutLine
  | banner : OutLine
  | alertLine : ℚ → ℚ → OutLine
  | activateLine : ℚ → OutLine
  | maxThresholdLine : ℚ → OutLine
deriving DecidableEq, Repr

/-- Outcome of the printing stage: the emitted lines, with fatalExit
recording a sys.exit whose diagnostic follows the lines already
printed. -/
inductive RunResult where
  | done : List OutLine → RunResult
  | fatalExit : List OutLine → String → RunResult
deriving DecidableEq, Repr

/-- Emit one line before the rest of a printing outcome. -/
def pushLine (x : OutLine) : RunResult → RunResult
  | .done ls => .done (x :: ls)
  | .fatalExit ls m => .fatalExit (x :: ls) m

/-- print_thresholds: banner then the three suggested threshold lines. -/
def print_thresholds (peak mean variance : ℚ) : List OutLine :=
  [.banner, .alertLine mean variance,
   .activateLine (activateThreshold peak), .maxThresholdLine (maxThreshold peak)]

/-- Diagnostic of the insufficient-sample sys.exit (its wording follows
the script). -/
def insufficientMsg : String :=
  "ERROR: Need a least two data points to calculate standard deviation."

/-- print_stats: nothing for an empty list, fatal exit for a singleton
(stdev needs two data points), otherwise the max, mean and stdev lines
followed by the thresholds. -/
def print_stats (cpslist : List ℚ) : RunResult :=
  if cpslist.isEmpty then .done []
  else if cpslist.length = 1 then .fatalExit [] insufficientMsg
  else
    .done ([.maxLine (listMax cpslist), .avgLine (statsMean cpslist),
            .stdevLine (sampleVar cpslist)]
      ++ print_thresholds (listMax cpslist) (statsMean cpslist) (sampleVar cpslist))

/-- Text shown for an optional value inside an f-string (None prints as
"None"). -/
def optText : Option String → String
  | none => "None"
  | some s => s

/-- Header chosen by print_results: the zone when truthy, the interface
otherwise. -/
def headerOf (interface zone : Option String) : String :=
  if truthyS zone then "zone=" ++ optText zone else "interface=" ++ optText interface

/-- print_results: silent for a missing or empty sample list; otherwise
the header line is printed first and print_stats follows. -/
def print_results (cpslist : Option (List ℚ)) (interface zone : Option String)
    (proto : String) : RunResult :=
  match cpslist with
  | none => .done []
  | some l =>
    if l.isEmpty then .done []
    else pushLine (.header (headerOf interface zone) proto) (print_stats l)

/-- Shared concrete input: character codes of the key "20240101000000". -/
def keyA : List Nat := [50, 48, 50, 52, 48, 49, 48, 49, 48, 48, 48, 48, 48, 48]

/-- Shared concrete input: character codes of the key "20240101000001". -/
def keyB : List Nat := [50, 48, 50, 52, 48, 49, 48, 49, 48, 48, 48, 48, 48, 49]

/-- Shared concrete input: character codes of the key "20240101000005". -/
def keyC : List Nat := [50, 48, 50, 52, 48, 49, 48, 49, 48, 48, 48, 48, 48, 53]

/-- Shared concrete input: the datetime 2024-01-01 00:00:00. -/
def dtA : DateTime := ⟨2024, 1, 1, 0, 0, 0⟩

/-- Shared concrete input: the datetime 2024-01-01 00:00:01. -/
def dtB : DateTime := ⟨2024, 1, 1, 0, 0, 1⟩

/-- Shared concrete configuration: interval 1 with the default bounds
lowcps 1 and highcps 10000. -/
def cfgI1 : Config := { interval := 1, lowcps := 1, highcps := 10000 }

/-- Shared concrete configuration: interval 3, lowcps 0, highcps 10000. -/
def cfgI3 : Config := { interval := 3, lowcps := 0, highcps := 10000 }

/-- Shared concrete configuration: interval 1, lowcps 0, highcps 10000. -/
def cfgI1L0 : Config := { interval := 1, lowcps := 0, highcps := 10000 }

/-- Shared concrete input row: Start Time "2024/01/01 00:00:00" on
interface eth0, zone trust, protocol tcp. -/
def rowT1 : Row :=
  { startTime := [50, 48, 50, 52, 47, 48, 49, 47, 48, 49, 32, 48, 48, 58, 48, 48, 58, 48, 48],
    inboundInterface := "eth0", sourceZone := "trust", ipProtocol := "tcp" }

/-- Shared concrete input row: same second as rowT1, protocol udp. -/
def rowT2 : Row :=
  { startTime := [50, 48, 50, 52, 47, 48, 49, 47, 48, 49, 32, 48, 48, 58, 48, 48, 58, 48, 48],
    inboundInterface := "eth0", sourceZone := "trust", ipProtocol := "udp" }

/-- Shared concrete input row: Start Time "2024/01/01 00:00:05". -/
def rowT3 : Row :=
  { startTime := [50, 48, 50, 52, 47, 48, 49, 47, 48, 49, 32, 48, 48, 58, 48, 48, 58, 48, 53],
    inboundInterface := "eth0", sourceZone := "trust", ipProtocol := "tcp" }

/-- Shared concrete input row: a row on another interface, filtered out
when eth0 is requested. -/
def rowT4 : Row :=
  { startTime := [50, 48, 50, 52, 47, 48, 49, 47, 48, 49, 32, 48, 48, 58, 48, 48, 58, 48, 48],
    inboundInterface := "eth1", sourceZone := "guest", ipProtocol := "tcp" }

/-- Shared concrete input row: Start Time "garbage", which strptime
rejects, on the requested interface. -/
def rowBadTs : Row :=
  { startTime := [103, 97, 114, 98, 97, 103, 101],
    inboundInterface := "eth0", sourceZone := "trust", ipProtocol := "tcp" }

/-- Reading a rendered fixed-width field consumes exactly its digits and
leaves the rest, continuing with the digits folded into the
accumulator. -/
lemma readFixedAux_append : ∀ (w v m : Nat) (rest : List Nat) (acc : Nat), m < 10 ^ w →
    readFixedAux (w + v) (renderFixed w m ++ rest) acc
      = readFixedAux v rest (acc * 10 ^ w + m) := by
  intro w
  induction w with
  | zero =>
    intro v m rest acc hm
    have hm0 : m = 0 := by omega
    subst hm0
    simp [renderFixed, readFixedAux]
  | succ w ih =>
    intro v m rest acc hm
    have hd : m / 10 < 10 ^ w := by
      rw [Nat.div_lt_iff_lt_mul (by norm_num)]
      calc m < 10 ^ (w + 1) := hm
        _ = 10 ^ w * 10 := by ring
    have h1 : renderFixed (w + 1) m ++ rest
        = renderFixed w (m / 10) ++ ([48 + m % 10] ++ rest) := by
      simp [renderFixed]
    have h2 : w + 1 + v = w + (v + 1) := by omega
    rw [h1, h2, ih (v + 1) (m / 10) ([48 + m % 10] ++ rest) acc hd]
    have hmod : m % 10 < 10 := Nat.mod_lt _ (by norm_num)
    have hcond : 48 ≤ 48 + m % 10 ∧ 48 + m % 10 ≤ 57 := by omega
    have h3 : readFixedAux (v + 1) ([48 + m % 10] ++ rest) (acc * 10 ^ w + m / 10)
        = readFixedAux v rest ((acc * 10 ^ w + m / 10) * 10 + (48 + m % 10 - 48)) := by
      simp only [List.cons_append, List.nil_append, readFixedAux, if_pos hcond]
      rfl
    rw [h3]
    congr 1
    have h4 : 48 + m % 10 - 48 = m % 10 := by omega
    have hdm : m / 10 * 10 + m % 10 = m := by omega
    calc (acc * 10 ^ w + m / 10) * 10 + (48 + m % 10 - 48)
        = acc * (10 ^ w * 10) + (m / 10 * 10 + (48 + m % 10 - 48)) := by ring
      _ = acc * 10 ^ (w + 1) + m := by rw [h4, hdm]; ring

/-- readFixed recovers the value a fixed-width render encodes. -/
lemma readFixed_render (w m : Nat) (rest : List Nat) (hm : m < 10 ^ w) :
    readFixed w (renderFixed w m ++ rest) = some (m, rest) := by
  have h := readFixedAux_append w 0 m rest 0 hm
  simpa [readFixed, readFixedAux] using h

/-- Variant of readFixed_render with nothing after the field. -/
lemma readFixed_render_nil (w m : Nat) (hm : m < 10 ^ w) :
    readFixed w (renderFixed w m) = some (m, []) := by
  have h := readFixed_render w m [] hm
  simpa using h

/-- Every month length is at most 31. -/
lemma daysInMonth_le (y m : Nat) : daysInMonth y m ≤ 31 := by
  unfold daysInMonth
  split
  · split <;> omega
  · split <;> omega

/-- C9: for every timestamp value at whole-second resolution, rendering
it in the canonical compressed form YYYYMMDDHHMMSS and reparsing that
string with the same format yields the same second-resolution instant:
the truncate-render-reparse round trip is the identity on valid
whole-second datetimes. -/
theorem compress_roundtrip (dt : DateTime) (h : dt.Valid) :
    strptimeCompress (strftimeCompress dt) = some dt := by
  obtain ⟨y, mo, d, hh, mi, s⟩ := dt
  have hb : validDT y mo d hh mi s = true := h
  have hdm := daysInMonth_le y mo
  have hb2 := hb
  simp only [validDT, Bool.and_eq_true, decide_eq_true_eq] at hb2
  obtain ⟨⟨⟨⟨⟨⟨⟨⟨hy1, hy2⟩, hmo1⟩, hmo2⟩, hd1⟩, hd2⟩, hhh⟩, hmi⟩, hs⟩ := hb2
  simp only [strftimeCompress, strptimeCompress, List.append_assoc]
  rw [readFixed_render 4 y _ (by omega)]
  simp only [Option.some_bind]
  rw [readFixed_render 2 mo _ (by omega)]
  simp only [Option.some_bind]
  rw [readFixed_render 2 d _ (by omega)]
  simp only [Option.some_bind]
  rw [readFixed_render 2 hh _ (by omega)]
  simp only [Option.some_bind]
  rw [readFixed_render 2 mi _ (by omega)]
  simp only [Option.some_bind]
  rw [readFixed_render_nil 2 s (by omega)]
  simp only [Option.some_bind]
  rw [if_pos ⟨trivial, hb⟩]

/-- Witness for C9 at the concrete leap-day instant 2024-02-29 23:59:59. -/
theorem compress_roundtrip_witness :
    strptimeCompress (strftimeCompress ⟨2024, 2, 29, 23, 59, 59⟩)
      = some ⟨2024, 2, 29, 23, 59, 59⟩ :=
  compress_roundtrip ⟨2024, 2, 29, 23, 59, 59⟩
    (by decide : validDT 2024 2 29 23 59 59 = true)

/-- Concrete run: the two keys one second apart, each counting 1, with
interval 1 give two separate buckets that are both discarded. -/
lemma eval_ex_sep : evaluate_cpsdict [(keyA, 1), (keyB, 1)] cfgI1 = VRes.ok (some []) := by
  norm_num [evaluate_cpsdict, sortKeys, insertKey, keyLe, strptimeCompress, readFixed,
    readFixedAux, validDT, daysInMonth, isLeap, cpsLoop, DateTime.toSecs, toOrdinal,
    daysBeforeMonth, lookupCount, dictGet, evaluate_row, cpsOf, keyA, keyB, cfgI1]

/-- Concrete run: the two keys one second apart, the second storing
count 5, with interval 3 merge into one bucket whose running count is
2 (incremented by 1, not by 5), giving the single sample 2/3. -/
lemma eval_ex_merge : evaluate_cpsdict [(keyA, 1), (keyB, 5)] cfgI3 = VRes.ok (some [2 / 3]) := by
  norm_num [evaluate_cpsdict, sortKeys, insertKey, keyLe, strptimeCompress, readFixed,
    readFixedAux, validDT, daysInMonth, isLeap, cpsLoop, DateTime.toSecs, toOrdinal,
    daysBeforeMonth, lookupCount, dictGet, evaluate_row, cpsOf, keyA, keyB, cfgI3]

/-- Concrete run: a single key with count 1 yields no samples even
though its cps value 1 lies strictly between lowcps 0 and highcps. -/
lemma eval_ex_single : evaluate_cpsdict [(keyA, 1)] cfgI1L0 = VRes.ok (some []) := by
  norm_num [evaluate_cpsdict, sortKeys, insertKey, keyLe, strptimeCompress, readFixed,
    readFixedAux, validDT, daysInMonth, isLeap, cpsLoop, DateTime.toSecs, toOrdinal,
    daysBeforeMonth, lookupCount, dictGet, evaluate_row, cpsOf, keyA, cfgI1L0]

/-- C1: during derivation over the sorted keys, a subsequent key with
timestamp ts joins the current bucket exactly when the time delta to the
anchor satisfies 2 * (ts - anchor) <= interval (the exact form of
(ts - anchor) <= interval/2 under true time-delta arithmetic); joining
increments the running count by exactly 1 regardless of the stored count
of that key and keeps the anchor; otherwise the bucket is flushed
through evaluate_row and a new bucket starts with anchor ts and the
stored count of that key. Concretely, keys one second apart stay
separate with interval 1 (and counts of 1 then yield no samples), while
with interval 3 they merge: a second key storing count 5 still adds only
1, producing the single sample 2/3. -/
theorem cpsdict_bucket_step (cfg : Config) (cpsdict : List (List Nat × Nat))
    (ks : List (List Nat)) (k : List Nat) (ts prev : DateTime) (count : Nat) (l : List ℚ)
    (hk : strptimeCompress k = some ts) :
    (2 * ((ts.toSecs : Int) - (prev.toSecs : Int)) ≤ (cfg.interval : Int) →
      cpsLoop cfg cpsdict (k :: ks) count prev l = cpsLoop cfg cpsdict ks (count + 1) prev l)
  ∧ (¬ 2 * ((ts.toSecs : Int) - (prev.toSecs : Int)) ≤ (cfg.interval : Int) →
      cpsLoop cfg cpsdict (k :: ks) count prev l
        = cpsLoop cfg cpsdict ks (lookupCount cpsdict k) ts (evaluate_row l count (some prev) cfg))
  ∧ samplesOf (evaluate_cpsdict [(keyA, 1), (keyB, 1)] cfgI1) = []
  ∧ samplesOf (evaluate_cpsdict [(keyA, 1), (keyB, 5)] cfgI3) = [2 / 3] := by
  refine ⟨fun h => ?_, fun h => ?_, ?_, ?_⟩
  · simp only [cpsLoop, hk, if_pos h]
  · simp only [cpsLoop, hk, if_neg h]
  · rw [eval_ex_sep]
    rfl
  · rw [eval_ex_merge]
    rfl

/-- Witness for C1: the key one second after the anchor joins the bucket
under interval 3, incrementing the running count from 1 to 2. -/
theorem cpsdict_bucket_step_witness :
    cpsLoop cfgI3 [(keyA, 1), (keyB, 5)] [keyB] 1 dtA []
      = cpsLoop cfgI3 [(keyA, 1), (keyB, 5)] [] 2 dtA [] := by
  have h := cpsdict_bucket_step cfgI3 [(keyA, 1), (keyB, 5)] [] keyB dtB dtA 1 []
    (by decide : strptimeCompress keyB = some dtB)
  exact h.1 (by decide)

/-- C2: evaluate_row appends cps = count/interval to the sample list
exactly when count > 1 and lowcps < cps < highcps (strict bounds), and a
bucket with count <= 1 never changes the list, regardless of where its
cps value lies. -/
theorem evaluate_row_retention (l : List ℚ) (count : Nat) (ts : DateTime) (cfg : Config) :
    (evaluate_row l count (some ts) cfg = l ++ [cpsOf count cfg]
      ↔ 1 < count ∧ ((cfg.lowcps : ℚ) < cpsOf count cfg ∧ cpsOf count cfg < (cfg.highcps : ℚ)))
  ∧ (count ≤ 1 → evaluate_row l count (some ts) cfg = l) := by
  have he : evaluate_row l count (some ts) cfg
      = if 1 < count ∧ ((cfg.lowcps : ℚ) < cpsOf count cfg ∧ cpsOf count cfg < (cfg.highcps : ℚ))
        then l ++ [cpsOf count cfg] else l := by
    simp only [evaluate_row]
    by_cases h1 : 1 < count <;>
      by_cases h2 : (cfg.lowcps : ℚ) < cpsOf count cfg ∧ cpsOf count cfg < (cfg.highcps : ℚ) <;>
      simp [h1, h2]
  rw [he]
  constructor
  · constructor
    · intro h
      by_contra hn
      rw [if_neg hn] at h
      have hlen := congrArg List.length h
      simp at hlen
    · intro h
      rw [if_pos h]
  · intro hle
    rw [if_neg]
    intro hc
    have h1 := hc.1
    omega

/-- Witness for C2: a bucket with count 1 leaves the sample list
unchanged. -/
theorem evaluate_row_retention_witness :
    evaluate_row [] 1 (some dtA) cfgI3 = [] :=
  (evaluate_row_retention [] 1 dtA cfgI3).2 (by decide)

/-- C8: an empty count table produces no samples: evaluate_cpsdict
returns Python None (ok none), which the caller reads as the empty
sample sequence. -/
theorem evaluate_cpsdict_empty (cfg : Config) :
    evaluate_cpsdict [] cfg = VRes.ok none ∧ samplesOf (evaluate_cpsdict [] cfg) = [] :=
  ⟨rfl, rfl⟩

/-- Elements of an evaluated row either were already present or satisfy
the strict cps bounds. -/
lemma evaluate_row_mem (l : List ℚ) (count : Nat) (ts : Option DateTime) (cfg : Config) :
    ∀ x ∈ evaluate_row l count ts cfg,
      x ∈ l ∨ ((cfg.lowcps : ℚ) < x ∧ x < (cfg.highcps : ℚ)) := by
  intro x hx
  cases ts with
  | none => exact Or.inl hx
  | some t =>
    simp only [evaluate_row] at hx
    split at hx
    · split at hx
      · rename_i h1 h2
        rcases List.mem_append.mp hx with h | h
        · exact Or.inl h
        · simp only [List.mem_singleton] at h
          subst h
          exact Or.inr h2
      · exact Or.inl hx
    · exact Or.inl hx

/-- The derivation loop only ever adds samples inside the strict cps
bounds. -/
lemma cpsLoop_bounds (cfg : Config) (cpsdict : List (List Nat × Nat)) :
    ∀ (ks : List (List Nat)) (count : Nat) (prev : DateTime) (l l2 : List ℚ),
      cpsLoop cfg cpsdict ks count prev l = VRes.ok l2 →
      (∀ x ∈ l, (cfg.lowcps : ℚ) < x ∧ x < (cfg.highcps : ℚ)) →
      ∀ x ∈ l2, (cfg.lowcps : ℚ) < x ∧ x < (cfg.highcps : ℚ) := by
  intro ks
  induction ks with
  | nil =>
    intro count prev l l2 h hl x hx
    simp only [cpsLoop] at h
    injection h with h
    subst h
    rcases evaluate_row_mem l count (some prev) cfg x hx with hin | hb
    · exact hl x hin
    · exact hb
  | cons k ks ih =>
    intro count prev l l2 h hl x hx
    cases hsp : strptimeCompress k with
    | none =>
      simp only [cpsLoop, hsp] at h
      exact VRes.noConfusion h
    | some ts =>
      simp only [cpsLoop, hsp] at h
      split at h
      · exact ih (count + 1) prev l l2 h hl x hx
      · refine ih (lookupCount cpsdict k) ts (evaluate_row l count (some prev) cfg) l2 h ?_ x hx
        intro y hy
        rcases evaluate_row_mem l count (some prev) cfg y hy with hin | hb
        · exact hl y hin
        · exact hb

/-- C5 amended: one direction of the claimed equivalence holds: every
cps value retained in the final sample list satisfies
lowcps < cps < highcps with strict inequalities. (The converse is
refuted by cps_bounds_not_sufficient: an in-bounds bucket whose running
count is at most 1 is not retained.) -/
theorem retained_samples_within_bounds (cfg : Config) (cpsdict : List (List Nat × Nat))
    (l : List ℚ) (h : evaluate_cpsdict cpsdict cfg = VRes.ok (some l)) :
    ∀ x ∈ l, (cfg.lowcps : ℚ) < x ∧ x < (cfg.highcps : ℚ) := by
  simp only [evaluate_cpsdict] at h
  split at h
  · injection h with h2
    exact absurd h2 (by simp)
  · split at h
    · injection h with h2
      exact absurd h2 (by simp)
    · rename_i k0 rest hsort
      split at h
      · cases h
      · rename_i ts0 hts0
        split at h
        · rename_i l0 hloop
          injection h with h2
          injection h2 with h3
          subst h3
          exact cpsLoop_bounds cfg cpsdict rest (lookupCount cpsdict k0) ts0 [] l0 hloop
            (by intro x hx; cases hx)
        · cases h

/-- Witness for amended C5: the retained sample 2/3 of the concrete
interval-3 run lies strictly between the bounds 0 and 10000. -/
theorem retained_samples_within_bounds_witness :
    (cfgI3.lowcps : ℚ) < 2 / 3 ∧ (2 / 3 : ℚ) < (cfgI3.highcps : ℚ) :=
  retained_samples_within_bounds cfgI3 [(keyA, 1), (keyB, 5)] [2 / 3]
    eval_ex_merge (2 / 3) (by simp)

/-- C5 counterexample: a bucket with running count 1 whose cps value 1
lies strictly inside the bounds (lowcps 0, highcps 10000) is still not
retained, so being in bounds does not imply retention. -/
theorem cps_bounds_not_sufficient :
    ((cfgI1L0.lowcps : ℚ) < cpsOf 1 cfgI1L0 ∧ cpsOf 1 cfgI1L0 < (cfgI1L0.highcps : ℚ))
  ∧ samplesOf (evaluate_cpsdict [(keyA, 1)] cfgI1L0) = [] := by
  constructor
  · norm_num [cpsOf, cfgI1L0]
  · rw [eval_ex_single]
    rfl

/-- Folding max over a list starting from a either returns a or a list
element. -/
lemma foldl_max_mem : ∀ (xs : List ℚ) (a : ℚ), xs.foldl max a = a ∨ xs.foldl max a ∈ xs := by
  intro xs
  induction xs with
  | nil => intro a; exact Or.inl rfl
  | cons x xs ih =>
    intro a
    rcases ih (max a x) with h | h
    · rcases max_choice a x with hm | hm
      · exact Or.inl (by rw [List.foldl_cons, h, hm])
      · refine Or.inr ?_
        rw [List.foldl_cons, h, hm]
        exact List.mem_cons_self x xs
    · exact Or.inr (List.mem_cons_of_mem x h)

/-- Folding max over a list bounds the seed and every element. -/
lemma le_foldl_max : ∀ (xs : List ℚ) (a : ℚ), a ≤ xs.foldl max a ∧ ∀ x ∈ xs, x ≤ xs.foldl max a := by
  intro xs
  induction xs with
  | nil =>
    intro a
    exact ⟨le_refl a, by intro x hx; cases hx⟩
  | cons y xs ih =>
    intro a
    obtain ⟨h1, h2⟩ := ih (max a y)
    refine ⟨le_trans (le_max_left a y) h1, ?_⟩
    intro x hx
    rcases List.mem_cons.mp hx with h | h
    · subst h
      exact le_trans (le_max_right a x) h1
    · exact h2 x h

/-- C3: on a nonempty sample list the reported max is the greatest
element of the list; for the samples [5, 7] the mean is 6, the sample
variance (N-1 denominator) is 2 so the standard deviation is sqrt 2,
the max is 7, and the thresholds are alert = 6 + sqrt 2,
activate = 1.1 * 7 = 7.7 and cap = 1.1 * 1.1 * 7 = 8.47. -/
theorem summarize_stats (l : List ℚ) (h : l ≠ []) :
    (listMax l ∈ l ∧ ∀ x ∈ l, x ≤ listMax l)
  ∧ statsMean [(5 : ℚ), 7] = 6
  ∧ sampleVar [(5 : ℚ), 7] = 2
  ∧ listMax [(5 : ℚ), 7] = 7
  ∧ Real.sqrt ((sampleVar [(5 : ℚ), 7] : ℚ) : ℝ) = Real.sqrt 2
  ∧ alertThreshold ((statsMean [(5 : ℚ), 7] : ℚ) : ℝ)
      (Real.sqrt ((sampleVar [(5 : ℚ), 7] : ℚ) : ℝ)) = 6 + Real.sqrt 2
  ∧ activateThreshold (listMax [(5 : ℚ), 7]) = 7.7
  ∧ maxThreshold (listMax [(5 : ℚ), 7]) = 8.47 := by
  have hmean : statsMean [(5 : ℚ), 7] = 6 := by norm_num [statsMean]
  have hvar : sampleVar [(5 : ℚ), 7] = 2 := by norm_num [sampleVar, statsMean]
  have hmax : listMax [(5 : ℚ), 7] = 7 := by norm_num [listMax]
  refine ⟨?_, hmean, hvar, hmax, ?_, ?_, ?_, ?_⟩
  · cases l with
    | nil => exact absurd rfl h
    | cons x xs =>
      constructor
      · rcases foldl_max_mem xs x with h2 | h2
        · simp only [listMax]
          rw [h2]
          exact List.mem_cons_self x xs
        · simp only [listMax]
          exact List.mem_cons_of_mem x h2
      · intro y hy
        obtain ⟨h1, h2⟩ := le_foldl_max xs x
        simp only [listMax]
        rcases List.mem_cons.mp hy with h3 | h3
        · subst h3
          exact h1
        · exact h2 y h3
  · rw [hvar]
    norm_num
  · rw [hmean, hvar]
    norm_num [alertThreshold]
  · rw [hmax]
    norm_num [activateThreshold]
  · rw [hmax]
    norm_num [maxThreshold]

/-- Witness for C3 at the concrete sample list [5, 7]. -/
theorem summarize_stats_witness : statsMean [(5 : ℚ), 7] = 6 :=
  (summarize_stats [(5 : ℚ), 7] (by simp)).2.1

/-- Valid filter criteria: exactly one of interface and zone is present
and nonempty (the mutually exclusive required group of the CLI). -/
def ValidCriteria (interface zone : Option String) : Prop :=
  (zone = none ∧ ∃ s, interface = some s ∧ s ≠ "") ∨
  (interface = none ∧ ∃ s, zone = some s ∧ s ≠ "")

/-- C4: under valid criteria with target value t, a row whose selected
target field (Inbound Interface when interface is set, Source Zone when
zone is set) differs from t is skipped for every protocol value, the
protocol never being consulted; when the target field matches, the row
is kept exactly when the protocol selector is "all", or it is "other"
and the row protocol is outside the known set {icmp, tcp, udp}, or the
row protocol equals the selector exactly. -/
theorem skip_row_spec (row : Row) (interface zone : Option String) (proto : String)
    (t : String) (hv : ValidCriteria interface zone)
    (ht : targetValueOf interface zone = some t) :
    (targetFieldOf row interface ≠ t → ∀ p : String, skip_row row interface p zone = true)
  ∧ (targetFieldOf row interface = t →
      (skip_row row interface proto zone = false ↔
        proto = "all" ∨ (proto = "other" ∧ row.ipProtocol ∉ PROTO_LIST)
          ∨ proto = row.ipProtocol)) := by
  have hcond : strNeOpt (targetFieldOf row interface) (targetValueOf interface zone)
      = (targetFieldOf row interface != t) := by
    rw [ht]
    rfl
  constructor
  · intro hne p
    simp [skip_row, hcond, bne_iff_ne, hne]
  · intro hft
    have hfalse : strNeOpt (targetFieldOf row interface) (targetValueOf interface zone) = false := by
      rw [hcond, hft]
      exact bne_self_eq_false t
    simp only [skip_row, hfalse, Bool.false_eq_true, if_false]
    by_cases h1 : proto = "all" <;>
      by_cases h2 : proto = "other" ∧ row.ipProtocol ∉ PROTO_LIST <;>
      by_cases h3 : proto = row.ipProtocol <;>
      simp [h1, h2, h3]

/-- Witness for C4: a row on zone guest is skipped when zone trust is
requested, here with protocol icmp. -/
theorem skip_row_spec_witness :
    skip_row rowT4 none "icmp" (some "trust") = true :=
  (skip_row_spec rowT4 none (some "trust") "icmp" "trust"
    (Or.inr ⟨rfl, "trust", rfl, by decide⟩) rfl).1 (by decide) "icmp"

/-- C6: a row that survives the filter but whose Start Time does not
parse under "%Y/%m/%d %H:%M:%S" makes process_csvfile terminate through
an uncaught ValueError: the run aborts without the file-and-line
diagnostic that the csv.Error handler would produce, because ValueError
is not a csv.Error and main catches only UnicodeDecodeError,
FileNotFoundError and PermissionError. -/
theorem timestamp_parse_uncaught :
    process_csvfile [RawRecord.ok rowBadTs] (some "eth0") "all" none
      = ProcResult.uncaughtValueError := by decide

/-- C7 counterexample: with exactly one retained sample the run does not
fail before any summary line is printed: the summary header line is
emitted first and the fatal insufficient-sample exit follows it, so the
list of lines printed before the fatal exit is not empty. -/
theorem single_sample_header_printed :
    print_results (some [5]) none (some "dmz") "all"
      = RunResult.fatalExit [OutLine.header "zone=dmz" "all"] insufficientMsg
  ∧ [OutLine.header "zone=dmz" "all"] ≠ ([] : List OutLine) := by
  constructor
  · rfl
  · simp

/-- C7 amended: when exactly one sample was retained the program prints
the summary header line and then terminates fatally with the
insufficient-sample diagnostic before any statistics or threshold line;
when zero samples were retained (a missing or empty sample list) the
run is not an error and produces no summary output at all. -/
theorem insufficient_sample_behavior (q : ℚ) (interface zone : Option String) (proto : String) :
    print_results (some [q]) interface zone proto
      = RunResult.fatalExit [OutLine.header (headerOf interface zone) proto] insufficientMsg
  ∧ print_results none interface zone proto = RunResult.done []
  ∧ print_results (some []) interface zone proto = RunResult.done [] := by
  refine ⟨?_, rfl, rfl⟩
  simp [print_results, print_stats, pushLine]

/-- Canonical compressed key a surviving row contributes to, when its
Start Time parses. -/
def keyOfRow (row : Row) : Option (List Nat) :=
  (strptimeFmt row.startTime).map strftimeCompress

/-- Number of rows in the list that survive the filter and whose
truncated timestamp renders to exactly the key k. -/
def occCount (interface : Option String) (proto : String) (zone : Option String)
    (rows : List Row) (k : List Nat) : Nat :=
  (rows.filter (fun row => !skip_row row interface proto zone && keyOfRow row == some k)).length

/-- Encoding of an occurrence count as a dict entry: zero means the key
is absent, a positive count is stored as is. -/
def countToOpt : Nat → Option Nat
  | 0 => none
  | n + 1 => some (n + 1)

/-- Reading back the key just assigned returns the assigned value. -/
lemma dictGet_dictSet_self (d : List (List Nat × Nat)) (k : List Nat) (v : Nat) :
    dictGet (dictSet d k v) k = some v := by
  induction d with
  | nil => simp [dictSet, dictGet]
  | cons p d ih =>
    obtain ⟨k2, v2⟩ := p
    by_cases h : k = k2
    · simp [dictSet, dictGet, h]
    · simp [dictSet, dictGet, h, ih]

/-- Assignment to a different key leaves a lookup unchanged. -/
lemma dictGet_dictSet_ne (d : List (List Nat × Nat)) (k k2 : List Nat) (v : Nat)
    (h : k ≠ k2) : dictGet (dictSet d k2 v) k = dictGet d k := by
  induction d with
  | nil => simp [dictSet, dictGet, h]
  | cons p d ih =>
    obtain ⟨k3, v3⟩ := p
    by_cases h2 : k2 = k3
    · subst h2
      simp [dictSet, dictGet, h]
    · by_cases h3 : k = k3
      · simp [dictSet, dictGet, h2, h3]
      · simp [dictSet, dictGet, h2, h3, ih]

/-- Invariant of the csv loop: starting from a table representing the
counts c, a successful run over error-free records leaves, under every
key, c plus the number of surviving rows truncating to that key. -/
lemma procLoop_counts (interface : Option String) (proto : String) (zone : Option String) :
    ∀ (rows : List Row) (line : Nat) (d : List (List Nat × Nat)) (c : List Nat → Nat)
      (d2 : List (List Nat × Nat)),
      (∀ k, dictGet d k = countToOpt (c k)) →
      procLoop interface proto zone (rows.map RawRecord.ok) line d = ProcResult.ok d2 →
      ∀ k, dictGet d2 k = countToOpt (c k + occCount interface proto zone rows k) := by
  intro rows
  induction rows with
  | nil =>
    intro line d c d2 hc h k
    simp only [List.map_nil, procLoop] at h
    injection h with h
    subst h
    simp [occCount, hc k]
  | cons row rows ih =>
    intro line d c d2 hc h k
    simp only [List.map_cons, procLoop] at h
    by_cases hs : skip_row row interface proto zone
    · rw [if_pos hs] at h
      rw [ih (line + 1) d c d2 hc h k]
      congr 1
      simp [occCount, List.filter_cons, hs]
    · rw [if_neg hs] at h
      cases hts : strptimeFmt row.startTime with
      | none =>
        simp only [hts] at h
        exact ProcResult.noConfusion h
      | some t1 =>
        simp only [hts] at h
        set kc := strftimeCompress t1 with hkc
        have hc2 : ∀ k2, dictGet
            (if truthyNat (dictGet d kc) then dictSet d kc (lookupCount d kc + 1)
            else dictSet d kc 1) k2
            = countToOpt ((fun k3 => if k3 = kc then c k3 + 1 else c k3) k2) := by
          intro k2
          by_cases hk : k2 = kc
          · subst hk
            cases hck : c kc with
            | zero =>
              have hd0 : dictGet d kc = none := by rw [hc kc, hck]; rfl
              simp [hd0, truthyNat, dictGet_dictSet_self, hck, countToOpt]
            | succ n =>
              have hdn : dictGet d kc = some (n + 1) := by rw [hc kc, hck]; rfl
              simp [hdn, truthyNat, lookupCount, dictGet_dictSet_self, hck, countToOpt]
          · by_cases htr : truthyNat (dictGet d kc) <;>
              simp [htr, dictGet_dictSet_ne d k2 kc _ hk, hc k2, hk]
        rw [ih (line + 1) _ _ d2 hc2 h k]
        have hkey : keyOfRow row = some kc := by
          simp [keyOfRow, hts, hkc]
        by_cases hk : k = kc
        · subst hk
          simp only [occCount, List.filter_cons, hs, Bool.not_false, hkey, beq_self_eq_true,
            Bool.and_self, if_true, List.length_cons]
          congr 1
          omega
        · have hbeq : (keyOfRow row == some k) = false := by
            rw [hkey]
            simp only [beq_eq_false_iff_ne, ne_eq, Option.some.injEq]
            exact fun hcontra => hk hcontra.symm
          simp only [occCount, List.filter_cons, hbeq, Bool.and_false]
          simp [hk]

/-- C10: after an error-free run over any rows, every key of the count
table stores exactly the number of surviving rows whose truncated
timestamp equals that key, every stored value is at least 1, and the
truthiness test dict.get uses when incrementing coincides with a
key-membership test, so no occurrence is miscounted. -/
theorem count_table_invariant (interface : Option String) (proto : String) (zone : Option String)
    (rows : List Row) (d : List (List Nat × Nat))
    (h : process_csvfile (rows.map RawRecord.ok) interface proto zone = ProcResult.ok d) :
    ∀ k : List Nat,
      dictGet d k = countToOpt (occCount interface proto zone rows k)
    ∧ (∀ v, dictGet d k = some v → 1 ≤ v ∧ v = occCount interface proto zone rows k)
    ∧ truthyNat (dictGet d k) = (dictGet d k).isSome := by
  have hmain := procLoop_counts interface proto zone rows 1 [] (fun _ => 0) d
    (fun k => rfl) h
  intro k
  have h1 : dictGet d k = countToOpt (occCount interface proto zone rows k) := by
    have h2 := hmain k
    simpa using h2
  refine ⟨h1, ?_, ?_⟩
  · intro v hv
    rw [h1] at hv
    cases hocc : occCount interface proto zone rows k with
    | zero =>
      rw [hocc] at hv
      exact Option.noConfusion hv
    | succ n =>
      rw [hocc] at hv
      injection hv with hv
      omega
  · rw [h1]
    cases occCount interface proto zone rows k with
    | zero => rfl
    | succ n => simp [countToOpt, truthyNat]

/-- Witness for C10: four concrete rows (two in the same second, one
five seconds later, one filtered out) produce the table with counts 2
and 1, matching the occurrence count under the first key. -/
theorem count_table_invariant_witness :
    dictGet [(keyA, 2), (keyC, 1)] keyA
      = countToOpt (occCount (some "eth0") "all" none [rowT1, rowT2, rowT3, rowT4] keyA) :=
  (count_table_invariant (some "eth0") "all" none [rowT1, rowT2, rowT3, rowT4]
    [(keyA, 2), (keyC, 1)] (by decide) keyA).1
